import Mathlib

/-!
Shallow embedding of `src/Error.ipp` (namespace `UtilCpp`) and proofs about it.

The C++ file defines:
  - `IError`: an abstract interface with five pure virtual observers
    (`GetClassId`, `operator std::string`, `GetType`, `GetDetails`, `GetInfo`);
  - the concept `ErrorConcept`;
  - `Error`: the concrete default error (three string fields);
  - `WrappingError<T>`: the type-erasing adapter forwarding all five observers;
  - `ErrorWrapper`: a shared-ownership handle over a heap-allocated adapter;
  - `OptionalError`, `MakeOptionalError`, `NoError`, `MakeError` (with explicit
    specialisations for `ErrorWrapper` arguments).

Modelling conventions:
  - `std::string` is `String`; machine addresses (`uintptr_t` values and heap
    addresses) are `Nat`.
  - A polymorphic `IError` object is modelled by the record of results of its
    five virtual observers (every object behind the interface is immutable
    after construction, so these five results determine all its behaviour).
  - `std::shared_ptr` is modelled by an explicit heap mapping addresses to a
    payload together with a reference count; handle copies share the address.
  - Accessors on a handle return `Option` values: `none` models dereferencing
    a dangling/absent pointer (undefined behaviour in the C++).
  - A `shared_ptr` value is either engaged or null. `ErrorWrapper` models
    handles in the engaged state — the state the single constructor builds
    every handle in — while `RawHandle` models the full state space of a
    handle object, including the null state that the implicitly declared
    move operations leave a moved-from handle in.
-/

namespace UtilCpp

/-- Machine address (`uintptr_t` / pointer value). -/
abbrev Addr := Nat

/-- Observable state of a polymorphic object behind the `IError` interface:
the results of its five virtual observers. Objects behind the interface are
immutable after construction, so this record is a faithful model. -/
structure IError where
  GetClassId : Nat
  toStdString : String
  GetType : String
  GetDetails : String
  GetInfo : String
deriving DecidableEq

/-- Address of the static member function `Error::Id` (`reinterpret_cast` to
`uintptr_t` in `Error::GetClassId`). Distinct functions have distinct
addresses; we fix this one as `0`. -/
def Error.idAddr : Nat := 0

/-- `UtilCpp::Error`: three private string fields, default-initialised to
empty strings. -/
structure Error where
  _type : String
  _details : String
  _devInfo : String
deriving DecidableEq

/-- `Error()` : default constructor (all fields default to empty strings). -/
def Error.mkEmpty : Error := ⟨"", "", ""⟩

/-- `Error(details)` : details-only constructor. -/
def Error.mkDetails (details : String) : Error := ⟨"", details, ""⟩

/-- `Error(type, details)` : type-and-details constructor. -/
def Error.mkTypeDetails (type details : String) : Error := ⟨type, details, ""⟩

/-- `Error::GetClassId()` : returns the address of the static function
`Error::Id`. Note it does not depend on the instance. -/
def Error.GetClassId (_ : Error) : Nat := Error.idAddr

/-- `Error::operator std::string()` : returns `_details`. -/
def Error.toStdString (e : Error) : String := e._details

/-- `Error::GetType()` : returns `_type`. -/
def Error.GetType (e : Error) : String := e._type

/-- `Error::GetDetails()` : returns `_details`. -/
def Error.GetDetails (e : Error) : String := e._details

/-- `Error::GetInfo()` : returns `_devInfo`. -/
def Error.GetInfo (e : Error) : String := e._devInfo

/-- `Error::WithDetails(details)` : assigns `_details`, leaves the other
fields alone (state part; identity is modelled by `ErrorRef`). -/
def Error.WithDetails (e : Error) (details : String) : Error :=
  { e with _details := details }

/-- `Error::WithInfo(info)` : assigns `_devInfo`, leaves the other fields
alone (state part; identity is modelled by `ErrorRef`). -/
def Error.WithInfo (e : Error) (info : String) : Error :=
  { e with _devInfo := info }

/-- An `Error` object at a fixed location. `addr` models object identity:
the C++ mutators assign to fields of `*this` and return `*this` by reference,
so the address of the result is the address of the receiver. -/
structure ErrorRef where
  addr : Addr
  state : Error
deriving DecidableEq

/-- `Error::WithDetails` on a located object: in-place field assignment,
returning the same object (same address). -/
def ErrorRef.WithDetails (r : ErrorRef) (details : String) : ErrorRef :=
  ⟨r.addr, r.state.WithDetails details⟩

/-- `Error::WithInfo` on a located object: in-place field assignment,
returning the same object (same address). -/
def ErrorRef.WithInfo (r : ErrorRef) (info : String) : ErrorRef :=
  ⟨r.addr, r.state.WithInfo info⟩

/-- A type implementing the `IError` interface: the five virtual observers.
This is what `WrappingError<T>` and `ErrorWrapper` require of their type
parameter (see `ErrorConcept` below: the constraint reduces to
`std::derived_from<T, IError>`, i.e. `T` provides these five observers). -/
class IErrorImpl (T : Type) where
  GetClassId : T → Nat
  toStdString : T → String
  GetType : T → String
  GetDetails : T → String
  GetInfo : T → String

instance : IErrorImpl Error :=
  ⟨Error.GetClassId, Error.toStdString, Error.GetType, Error.GetDetails, Error.GetInfo⟩

/-- `UtilCpp::WrappingError<T>`: holds one value `_err : T`. -/
structure WrappingError (T : Type) where
  _err : T
deriving DecidableEq

/-- `WrappingError<T>::GetClassId()` : `return _err.GetClassId();`. -/
def WrappingError.GetClassId [IErrorImpl T] (w : WrappingError T) : Nat :=
  IErrorImpl.GetClassId w._err

/-- `WrappingError<T>::operator std::string()` : `return std::string(_err);`. -/
def WrappingError.toStdString [IErrorImpl T] (w : WrappingError T) : String :=
  IErrorImpl.toStdString w._err

/-- `WrappingError<T>::GetType()` : `return _err.GetType();`. -/
def WrappingError.GetType [IErrorImpl T] (w : WrappingError T) : String :=
  IErrorImpl.GetType w._err

/-- `WrappingError<T>::GetDetails()` : `return _err.GetDetails();`. -/
def WrappingError.GetDetails [IErrorImpl T] (w : WrappingError T) : String :=
  IErrorImpl.GetDetails w._err

/-- `WrappingError<T>::GetInfo()` : `return _err.GetInfo();`. -/
def WrappingError.GetInfo [IErrorImpl T] (w : WrappingError T) : String :=
  IErrorImpl.GetInfo w._err

instance [IErrorImpl T] : IErrorImpl (WrappingError T) :=
  ⟨WrappingError.GetClassId, WrappingError.toStdString, WrappingError.GetType,
   WrappingError.GetDetails, WrappingError.GetInfo⟩

/-- Upcast of a `WrappingError<T>` object to the `IError` interface: the
record of its five virtual-observer results. -/
def WrappingError.toIError [IErrorImpl T] (w : WrappingError T) : IError :=
  ⟨w.GetClassId, w.toStdString, w.GetType, w.GetDetails, w.GetInfo⟩

/-- Heap backing `std::shared_ptr<IError>`: a map from addresses to an
allocated payload together with its reference count, plus the next fresh
address used by allocation. -/
structure Heap where
  mem : Addr → Option (IError × Nat)
  next : Addr

/-- The empty heap. -/
def Heap.empty : Heap := ⟨fun _ => none, 0⟩

/-- Dereference: the payload stored at `a`, if any. -/
def Heap.deref (h : Heap) (a : Addr) : Option IError :=
  (h.mem a).map Prod.fst

/-- Reference count of the cell at `a` (0 when unallocated). -/
def Heap.count (h : Heap) (a : Addr) : Nat :=
  ((h.mem a).map Prod.snd).getD 0

/-- `std::make_shared<...>`: allocate a fresh cell with reference count 1. -/
def Heap.alloc (h : Heap) (e : IError) : Heap × Addr :=
  (⟨fun b => if b = h.next then some (e, 1) else h.mem b, h.next + 1⟩, h.next)

/-- `shared_ptr` copy: increment the reference count of the cell at `a`. -/
def Heap.incref (h : Heap) (a : Addr) : Heap :=
  match h.mem a with
  | some (e, n) => ⟨fun b => if b = a then some (e, n + 1) else h.mem b, h.next⟩
  | none => h

/-- `shared_ptr` destruction: decrement the reference count of the cell at
`a`, deallocating it when the count reaches zero. -/
def Heap.decref (h : Heap) (a : Addr) : Heap :=
  match h.mem a with
  | some (e, n) =>
      if n ≤ 1 then ⟨fun b => if b = a then none else h.mem b, h.next⟩
      else ⟨fun b => if b = a then some (e, n - 1) else h.mem b, h.next⟩
  | none => h

/-- `UtilCpp::ErrorWrapper`: holds `_ptr : std::shared_ptr<IError>`, modelled
as the address of the shared cell. Its only constructor is `mkFrom` below. -/
structure ErrorWrapper where
  _ptr : Addr
deriving DecidableEq

/-- `ErrorWrapper::ErrorWrapper(T t)` (the only constructor): allocates
`WrappingError<T>` around the value via `std::make_shared` and stores the
pointer. -/
def ErrorWrapper.mkFrom [IErrorImpl T] (h : Heap) (t : T) : Heap × ErrorWrapper :=
  let p := h.alloc (WrappingError.toIError ⟨t⟩)
  (p.1, ⟨p.2⟩)

/-- `ErrorWrapper::GetClassId()` : `return _ptr.get()->GetClassId();`.
`none` models a null/dangling dereference. -/
def ErrorWrapper.GetClassId (h : Heap) (w : ErrorWrapper) : Option Nat :=
  (h.deref w._ptr).map IError.GetClassId

/-- `ErrorWrapper::operator std::string()` : dereferences `_ptr`. -/
def ErrorWrapper.toStdString (h : Heap) (w : ErrorWrapper) : Option String :=
  (h.deref w._ptr).map IError.toStdString

/-- `ErrorWrapper::GetType()` : dereferences `_ptr`. -/
def ErrorWrapper.GetType (h : Heap) (w : ErrorWrapper) : Option String :=
  (h.deref w._ptr).map IError.GetType

/-- `ErrorWrapper::GetDetails()` : dereferences `_ptr`. -/
def ErrorWrapper.GetDetails (h : Heap) (w : ErrorWrapper) : Option String :=
  (h.deref w._ptr).map IError.GetDetails

/-- `ErrorWrapper::GetInfo()` : dereferences `_ptr`. -/
def ErrorWrapper.GetInfo (h : Heap) (w : ErrorWrapper) : Option String :=
  (h.deref w._ptr).map IError.GetInfo

/-- Copy construction of an `ErrorWrapper`: the copy holds the same address
(shared ownership), and the reference count is incremented. -/
def ErrorWrapper.copy (h : Heap) (w : ErrorWrapper) : Heap × ErrorWrapper :=
  (h.incref w._ptr, ⟨w._ptr⟩)

/-- Destruction of an `ErrorWrapper`: the shared count is decremented (the
payload is freed when the last handle goes away). -/
def ErrorWrapper.drop (h : Heap) (w : ErrorWrapper) : Heap :=
  h.decref w._ptr

/-- `using OptionalError = std::optional<ErrorWrapper>;`. -/
abbrev OptionalError := Option ErrorWrapper

/-- `MakeOptionalError(error)` : `return ErrorWrapper{ error };` converted to
a populated optional. -/
def MakeOptionalError [IErrorImpl E] (h : Heap) (e : E) : Heap × OptionalError :=
  let p := ErrorWrapper.mkFrom h e
  (p.1, some p.2)

/-- `inline constexpr auto NoError = std::nullopt;`. -/
def NoError : OptionalError := none

/-- `tl::unexpected<ErrorWrapper>`: the failure arm of a result, holding the
handle (retrieved by `.value()` in tl::expected). -/
structure Unexpected where
  value : ErrorWrapper
deriving DecidableEq

/-- Primary `MakeError(E&& / const E&)` for a conforming error value:
`return unexpected(ErrorWrapper{ error });` — allocates a fresh adapter. -/
def MakeError [IErrorImpl E] (h : Heap) (e : E) : Heap × Unexpected :=
  let p := ErrorWrapper.mkFrom h e
  (p.1, ⟨p.2⟩)

/-- Explicit specialisation `MakeError(ErrorWrapper&&)` :
`return unexpected({ std::move(error) });` — moves the existing handle into
the failure arm: same pointer, no new allocation, count unchanged. -/
def MakeErrorFromHandleMove (h : Heap) (w : ErrorWrapper) : Heap × Unexpected :=
  (h, ⟨w⟩)

/-- Explicit specialisation `MakeError(const ErrorWrapper&)` :
`return unexpected({ error });` — copies the existing handle into the
failure arm: same pointer, no new allocation, count incremented. -/
def MakeErrorFromHandleCopy (h : Heap) (w : ErrorWrapper) : Heap × Unexpected :=
  (h.incref w._ptr, ⟨w⟩)

/-- Compile-time shape of a candidate C++ type `T` checked against the
concept `ErrorConcept`, reduced to the two facts the concept and the spec
talk about: whether `T` nominally derives from `IError`
(`std::derived_from<T, IError>`), and whether `T` structurally exposes the
five named capability operations (duck-typed conformance). -/
structure CppClassShape where
  derivesIError : Bool
  hasFiveOps : Bool
deriving DecidableEq

/-- `std::is_convertible_v<T, IError>`: always `false`, for every `T`,
because `IError` is an abstract class (it has pure virtual members), and no
expression can be converted to a prvalue of abstract class type. -/
def CppClassShape.convertibleToIError (_ : CppClassShape) : Bool := false

/-- `concept ErrorConcept = std::derived_from<T, IError> ||
std::is_convertible_v<T, IError>;`. -/
def ErrorConcept (c : CppClassShape) : Bool :=
  c.derivesIError || c.convertibleToIError

/-- Shape of `UtilCpp::Error` under `ErrorConcept`: it derives from `IError`
and has the five operations. -/
def Error.shape : CppClassShape := ⟨true, true⟩

/-- Modelled from the spec: a user-defined concrete error type following the
TypeTag contract of spec section 4.3 — it overrides `GetClassId` with the
address of its own distinct static marker ("a distinct static variable
generated per type instantiation"), distinct from `Error::Id`. No such user
type exists under `src/`; this stands for any type written per that
contract. It reuses `Error` for the string fields, as a derived class
would. -/
structure CustomError where
  base : Error
deriving DecidableEq

/-- Modelled from the spec: address of the custom type's own static marker;
distinct functions/statics have distinct addresses, so it differs from
`Error.idAddr`. -/
def CustomError.idAddr : Nat := 1

/-- Modelled from the spec: the custom type's `GetClassId` returns its own
marker's address. -/
def CustomError.GetClassId (_ : CustomError) : Nat := CustomError.idAddr

instance : IErrorImpl CustomError :=
  ⟨CustomError.GetClassId,
   fun c => c.base.toStdString,
   fun c => c.base.GetType,
   fun c => c.base.GetDetails,
   fun c => c.base.GetInfo⟩

/-- C++ static type identity (the name of a concrete class) for the concrete
error classes in the model: `UtilCpp::Error`, the spec-modelled custom type,
and each instantiation `WrappingError<T>`. Two instances "are of the same
concrete error type" exactly when their class names are equal. -/
inductive ErrClassName where
  | errorClass : ErrClassName
  | customClass : ErrClassName
  | wrappingClass : ErrClassName → ErrClassName
deriving DecidableEq

/-- An instance of any concrete error class in the model: an `Error`, a
spec-modelled `CustomError`, or a `WrappingError<T>` wrapping one of these. -/
inductive ConcreteError where
  | basic : Error → ConcreteError
  | custom : CustomError → ConcreteError
  | wrapped : ConcreteError → ConcreteError
deriving DecidableEq

/-- The concrete class an instance belongs to. -/
def ConcreteError.className : ConcreteError → ErrClassName
  | .basic _ => .errorClass
  | .custom _ => .customClass
  | .wrapped t => .wrappingClass t.className

/-- `GetClassId()` (virtual dispatch) on an instance: `Error` returns the
address of `Error::Id`; the custom type returns its own marker address;
`WrappingError<T>::GetClassId` returns `_err.GetClassId()`. -/
def ConcreteError.classId : ConcreteError → Nat
  | .basic e => e.GetClassId
  | .custom c => c.GetClassId
  | .wrapped t => t.classId

/-- The underlying (pre-erasure) concrete class of an instance: the class of
the value reached after stripping every `WrappingError` adapter layer. -/
def ConcreteError.rootName : ConcreteError → ErrClassName
  | .basic _ => .errorClass
  | .custom _ => .customClass
  | .wrapped t => t.rootName

/-- The raw state of an `ErrorWrapper` handle object over its whole
lifetime: its `_ptr` field is a `std::shared_ptr<IError>` value, which is
either engaged (owning a shared reference to a heap cell) or null — the
state the implicitly declared move constructor and move assignment of
`ErrorWrapper` leave the moved-from handle in. `ErrorWrapper` above models
engaged handles only (the state the single constructor builds every handle
in); `RawHandle` additionally covers moved-from handles. -/
structure RawHandle where
  _ptr : Option Addr
deriving DecidableEq

/-- A handle whose shared pointer is null: the state the source of a move
(for example the argument of the specialisation `MakeError(ErrorWrapper&&)`
or of `MakeResultError(ErrorWrapper&&)`, both of which `std::move` their
argument) is left in. -/
def RawHandle.nulled : RawHandle := ⟨none⟩

/-- The raw state of an engaged handle. -/
def ErrorWrapper.toRaw (w : ErrorWrapper) : RawHandle := ⟨some w._ptr⟩

/-- `ErrorWrapper::ErrorWrapper(T t)` seen at the raw-state level: the
freshly constructed handle is always engaged. -/
def RawHandle.mkFrom {T : Type} [IErrorImpl T] (h : Heap) (t : T) :
    Heap × RawHandle :=
  let p := ErrorWrapper.mkFrom h t
  (p.1, p.2.toRaw)

/-- `ErrorWrapper::GetClassId()` on a raw handle: `_ptr.get()->GetClassId()`.
On a null (moved-from) handle `_ptr.get()` is a null pointer and the call
dereferences it — undefined behaviour, modelled as `none`. -/
def RawHandle.GetClassId (h : Heap) (r : RawHandle) : Option Nat :=
  match r._ptr with
  | some a => ErrorWrapper.GetClassId h ⟨a⟩
  | none => none

/-- `ErrorWrapper::operator std::string()` on a raw handle; `none` on a
null handle (null dereference). -/
def RawHandle.toStdString (h : Heap) (r : RawHandle) : Option String :=
  match r._ptr with
  | some a => ErrorWrapper.toStdString h ⟨a⟩
  | none => none

/-- `ErrorWrapper::GetType()` on a raw handle; `none` on a null handle. -/
def RawHandle.GetType (h : Heap) (r : RawHandle) : Option String :=
  match r._ptr with
  | some a => ErrorWrapper.GetType h ⟨a⟩
  | none => none

/-- `ErrorWrapper::GetDetails()` on a raw handle; `none` on a null handle. -/
def RawHandle.GetDetails (h : Heap) (r : RawHandle) : Option String :=
  match r._ptr with
  | some a => ErrorWrapper.GetDetails h ⟨a⟩
  | none => none

/-- `ErrorWrapper::GetInfo()` on a raw handle; `none` on a null handle. -/
def RawHandle.GetInfo (h : Heap) (r : RawHandle) : Option String :=
  match r._ptr with
  | some a => ErrorWrapper.GetInfo h ⟨a⟩
  | none => none

/-- Heap effect of copy-constructing from a raw handle: a `shared_ptr` copy
increments the count of the cell of an engaged source; copying a null
handle touches no cell. -/
def RawHandle.copyHeap (h : Heap) (r : RawHandle) : Heap :=
  match r._ptr with
  | some a => h.incref a
  | none => h

/-- Heap effect of destroying a raw handle: the `shared_ptr` destructor
decrements the count of the cell of an engaged handle; destroying a null
handle touches no cell. -/
def RawHandle.dropHeap (h : Heap) (r : RawHandle) : Heap :=
  match r._ptr with
  | some a => h.decref a
  | none => h

/-- Well-formedness of a heap together with the list of the handle objects
currently alive: the reference count of each cell equals the number of live
handles engaged at that address (null handles own nothing), and every
address at or beyond `next` is unallocated. -/
def WFM (h : Heap) (ws : List RawHandle) : Prop :=
  (∀ a : Addr, h.count a = ws.count ⟨some a⟩) ∧
  (∀ a : Addr, h.next ≤ a → h.mem a = none)

/-- One step of the life of the program at the level of `ErrorWrapper`
handle objects (`ws` lists every handle object currently alive):
constructing a handle from a conforming error value (the only constructor
declared — there is no default or null-handle constructor), copy-constructing
from a held handle, destroying a held handle, or move-constructing from a
held handle. A move transfers the pointer into the new handle and leaves
the source handle null, as happens to the argument of
`MakeError(ErrorWrapper&&)` and `MakeResultError(ErrorWrapper&&)`. A move
assignment `t = std::move(s)` has the same effect on the heap and on the
multiset of handle states as destroying `t` and then move-constructing from
`s`, so it is covered by composing these primitives. -/
inductive StepM : Heap → List RawHandle → Heap → List RawHandle → Prop where
  | mk {T : Type} [IErrorImpl T] (t : T) (h : Heap) (ws : List RawHandle) :
      StepM h ws (RawHandle.mkFrom h t).1 ((RawHandle.mkFrom h t).2 :: ws)
  | copy (r : RawHandle) (h : Heap) (ws : List RawHandle) (hr : r ∈ ws) :
      StepM h ws (RawHandle.copyHeap h r) (r :: ws)
  | drop (r : RawHandle) (h : Heap) (l1 l2 : List RawHandle) :
      StepM h (l1 ++ r :: l2) (RawHandle.dropHeap h r) (l1 ++ l2)
  | move (r : RawHandle) (h : Heap) (l1 l2 : List RawHandle) :
      StepM h (l1 ++ r :: l2) h (r :: l1 ++ RawHandle.nulled :: l2)

/-- Finitely many steps. -/
inductive StepsM : Heap → List RawHandle → Heap → List RawHandle → Prop where
  | refl (h : Heap) (ws : List RawHandle) : StepsM h ws h ws
  | tail {h ws h1 ws1 h2 ws2} :
      StepsM h ws h1 ws1 → StepM h1 ws1 h2 ws2 → StepsM h ws h2 ws2

lemma countM_cons_ne {ws : List RawHandle} {r x : RawHandle} (hrx : r ≠ x) :
    List.count x (r :: ws) = List.count x ws := by
  rw [List.count_cons]
  have hbeq : (r == x) = false := by simp [hrx]
  rw [hbeq]
  simp

lemma countM_append_cons (x r : RawHandle) (l1 l2 : List RawHandle) :
    List.count x (l1 ++ r :: l2) =
      List.count x (l1 ++ l2) + if r == x then 1 else 0 := by
  rw [List.count_append, List.count_cons, List.count_append, Nat.add_assoc]

lemma WFM.memCell {h : Heap} {ws : List RawHandle}
    (hwf : WFM h ws) {a : Addr} (hw : (⟨some a⟩ : RawHandle) ∈ ws) :
    ∃ e n, h.mem a = some (e, n) ∧ n = ws.count ⟨some a⟩ := by
  have hcount := hwf.1 a
  have hpos : 0 < ws.count (⟨some a⟩ : RawHandle) := List.count_pos_iff.mpr hw
  rw [← hcount] at hpos
  unfold Heap.count at hpos
  cases hmem : h.mem a with
  | none => rw [hmem] at hpos; simp at hpos
  | some p =>
      refine ⟨p.1, p.2, ?_, ?_⟩
      · rfl
      · rw [← hcount]
        unfold Heap.count
        rw [hmem]
        rfl

lemma WFM.lt_next {h : Heap} {ws : List RawHandle}
    (hwf : WFM h ws) {a : Addr} (hw : (⟨some a⟩ : RawHandle) ∈ ws) :
    a < h.next := by
  by_contra hge
  push_neg at hge
  obtain ⟨e, n, hmem, -⟩ := hwf.memCell hw
  rw [hwf.2 a hge] at hmem
  exact Option.noConfusion hmem

lemma WFM.empty : WFM Heap.empty [] := by
  constructor
  · intro a; rfl
  · intro a _; rfl

lemma Heap.incref_char {h : Heap} {a : Addr} {e : IError} {n : Nat}
    (hmem : h.mem a = some (e, n)) :
    h.incref a = ⟨fun b => if b = a then some (e, n + 1) else h.mem b, h.next⟩ := by
  simp [Heap.incref, hmem]

lemma Heap.decref_free {h : Heap} {a : Addr} {e : IError} {n : Nat}
    (hmem : h.mem a = some (e, n)) (h1 : n ≤ 1) :
    h.decref a = ⟨fun b => if b = a then none else h.mem b, h.next⟩ := by
  simp [Heap.decref, hmem, h1]

lemma Heap.decref_dec {h : Heap} {a : Addr} {e : IError} {n : Nat}
    (hmem : h.mem a = some (e, n)) (h1 : ¬ n ≤ 1) :
    h.decref a = ⟨fun b => if b = a then some (e, n - 1) else h.mem b, h.next⟩ := by
  simp [Heap.decref, hmem, h1]

lemma RawHandle.copyHeap_none {h : Heap} {r : RawHandle} (hrp : r._ptr = none) :
    RawHandle.copyHeap h r = h := by
  simp [RawHandle.copyHeap, hrp]

lemma RawHandle.copyHeap_some {h : Heap} {r : RawHandle} {a : Addr}
    (hrp : r._ptr = some a) : RawHandle.copyHeap h r = h.incref a := by
  simp [RawHandle.copyHeap, hrp]

lemma RawHandle.dropHeap_none {h : Heap} {r : RawHandle} (hrp : r._ptr = none) :
    RawHandle.dropHeap h r = h := by
  simp [RawHandle.dropHeap, hrp]

lemma RawHandle.dropHeap_some {h : Heap} {r : RawHandle} {a : Addr}
    (hrp : r._ptr = some a) : RawHandle.dropHeap h r = h.decref a := by
  simp [RawHandle.dropHeap, hrp]

lemma WFM.step {h : Heap} {ws : List RawHandle} {h' : Heap}
    {ws' : List RawHandle} (hwf : WFM h ws) (hs : StepM h ws h' ws') :
    WFM h' ws' := by
  cases hs with
  | mk t h ws =>
      have hp2 : (RawHandle.mkFrom h t).2 = (⟨some h.next⟩ : RawHandle) := rfl
      constructor
      · intro a
        by_cases ha : a = h.next
        · have h0 : h.mem a = none := hwf.2 a (ha ▸ Nat.le_refl h.next)
          have hc0 : List.count (⟨some a⟩ : RawHandle) ws = 0 := by
            have hc := hwf.1 a
            unfold Heap.count at hc
            rw [h0] at hc
            exact hc.symm
          subst ha
          simp [RawHandle.mkFrom, ErrorWrapper.toRaw, ErrorWrapper.mkFrom,
            Heap.alloc, Heap.count, List.count_cons, hc0]
        · have hc := hwf.1 a
          have hne : (⟨some h.next⟩ : RawHandle) ≠ (⟨some a⟩ : RawHandle) := by
            intro hh
            exact ha (Option.some.inj (congrArg RawHandle._ptr hh)).symm
          rw [hp2, countM_cons_ne hne]
          simp only [RawHandle.mkFrom, ErrorWrapper.mkFrom, Heap.alloc, Heap.count]
          rw [if_neg ha]
          simpa [Heap.count] using hc
      · intro a hle
        have hle' : h.next + 1 ≤ a := by
          simpa [RawHandle.mkFrom, ErrorWrapper.mkFrom, Heap.alloc] using hle
        simp only [RawHandle.mkFrom, ErrorWrapper.mkFrom, Heap.alloc]
        have hne : a ≠ h.next := Nat.ne_of_gt hle'
        rw [if_neg hne]
        exact hwf.2 a (Nat.le_of_succ_le hle')
  | copy r h ws hr =>
      cases hrp : r._ptr with
      | none =>
          rw [RawHandle.copyHeap_none hrp]
          have hre : r = (⟨none⟩ : RawHandle) := by rw [← hrp]
          constructor
          · intro a
            have hne : r ≠ (⟨some a⟩ : RawHandle) := by
              rw [hre]
              intro hh
              exact Option.noConfusion (congrArg RawHandle._ptr hh)
            rw [countM_cons_ne hne]
            exact hwf.1 a
          · exact hwf.2
      | some a0 =>
          have hre : r = (⟨some a0⟩ : RawHandle) := by rw [← hrp]
          have hr' : (⟨some a0⟩ : RawHandle) ∈ ws := hre ▸ hr
          obtain ⟨e, n, hmem, hn⟩ := hwf.memCell hr'
          have hlt : a0 < h.next := hwf.lt_next hr'
          rw [RawHandle.copyHeap_some hrp, Heap.incref_char hmem]
          constructor
          · intro a
            by_cases ha : a = a0
            · subst ha
              simp [Heap.count, hre, List.count_cons, hn]
            · have hne : r ≠ (⟨some a⟩ : RawHandle) := by
                rw [hre]
                intro hh
                exact ha (Option.some.inj (congrArg RawHandle._ptr hh)).symm
              rw [countM_cons_ne hne]
              simp only [Heap.count, if_neg ha]
              simpa [Heap.count] using hwf.1 a
          · intro a hle
            have hne : a ≠ a0 := Nat.ne_of_gt (Nat.lt_of_lt_of_le hlt hle)
            simp only [if_neg hne]
            exact hwf.2 a hle
  | drop r h l1 l2 =>
      cases hrp : r._ptr with
      | none =>
          rw [RawHandle.dropHeap_none hrp]
          have hre : r = (⟨none⟩ : RawHandle) := by rw [← hrp]
          constructor
          · intro a
            have hc := hwf.1 a
            rw [countM_append_cons] at hc
            have hbeq : (r == (⟨some a⟩ : RawHandle)) = false := by
              rw [hre]
              simp
            rw [hbeq] at hc
            simpa using hc
          · exact hwf.2
      | some a0 =>
          have hre : r = (⟨some a0⟩ : RawHandle) := by rw [← hrp]
          have hr' : (⟨some a0⟩ : RawHandle) ∈ l1 ++ r :: l2 := by
            rw [← hre]
            exact List.mem_append_right l1 (List.mem_cons_self r l2)
          obtain ⟨e, n, hmem, hn⟩ := hwf.memCell hr'
          have hlt : a0 < h.next := hwf.lt_next hr'
          have hn1 : n = List.count (⟨some a0⟩ : RawHandle) (l1 ++ l2) + 1 := by
            rw [hn, countM_append_cons]
            simp [hre]
          rw [RawHandle.dropHeap_some hrp]
          by_cases hone : n ≤ 1
          · rw [Heap.decref_free hmem hone]
            constructor
            · intro a
              by_cases ha : a = a0
              · subst ha
                simp only [Heap.count, if_pos rfl]
                rw [hn1] at hone
                have hc0 : List.count (⟨some a⟩ : RawHandle) (l1 ++ l2) = 0 :=
                  Nat.le_zero.mp (Nat.le_of_succ_le_succ hone)
                rw [hc0]
                rfl
              · have hbeq : (r == (⟨some a⟩ : RawHandle)) = false := by
                  rw [hre]
                  simp
                  intro hh
                  exact ha hh.symm
                have hc := hwf.1 a
                rw [countM_append_cons, hbeq] at hc
                simp only [Heap.count, if_neg ha]
                simpa [Heap.count] using hc
            · intro a hle
              have hne : a ≠ a0 := Nat.ne_of_gt (Nat.lt_of_lt_of_le hlt hle)
              simp only [if_neg hne]
              exact hwf.2 a hle
          · rw [Heap.decref_dec hmem hone]
            constructor
            · intro a
              by_cases ha : a = a0
              · subst ha
                simp only [Heap.count, if_pos rfl]
                rw [hn1]
                simp
              · have hbeq : (r == (⟨some a⟩ : RawHandle)) = false := by
                  rw [hre]
                  simp
                  intro hh
                  exact ha hh.symm
                have hc := hwf.1 a
                rw [countM_append_cons, hbeq] at hc
                simp only [Heap.count, if_neg ha]
                simpa [Heap.count] using hc
            · intro a hle
              have hne : a ≠ a0 := Nat.ne_of_gt (Nat.lt_of_lt_of_le hlt hle)
              simp only [if_neg hne]
              exact hwf.2 a hle
  | move r h l1 l2 =>
      constructor
      · intro a
        have hbeq : (RawHandle.nulled == (⟨some a⟩ : RawHandle)) = false := by
          simp [RawHandle.nulled]
        rw [hwf.1 a, countM_append_cons, countM_append_cons, hbeq]
        simp [List.count_append, List.count_cons, Nat.add_comm, Nat.add_assoc,
          Nat.add_left_comm]
      · exact hwf.2

lemma WFM.steps {h : Heap} {ws : List RawHandle} {h' : Heap}
    {ws' : List RawHandle} (hwf : WFM h ws) (hs : StepsM h ws h' ws') :
    WFM h' ws' := by
  induction hs with
  | refl => exact hwf
  | tail hsteps hstep ih => exact ih.step hstep

lemma WFM.deref_of_engaged {h : Heap} {ws : List RawHandle}
    (hwf : WFM h ws) {a : Addr} (hw : (⟨some a⟩ : RawHandle) ∈ ws) :
    ∃ e, h.deref a = some e := by
  obtain ⟨e, n, hmem, -⟩ := hwf.memCell hw
  exact ⟨e, by simp [Heap.deref, hmem]⟩

lemma Heap.deref_incref (h : Heap) (a b : Addr) :
    (h.incref a).deref b = h.deref b := by
  cases hm : h.mem a with
  | none => simp [Heap.incref, hm]
  | some p =>
      obtain ⟨e, n⟩ := p
      by_cases hb : b = a
      · subst hb
        simp [Heap.incref_char hm, Heap.deref, hm]
      · simp [Heap.incref_char hm, Heap.deref, hb]

lemma Heap.next_incref (h : Heap) (a : Addr) :
    (h.incref a).next = h.next := by
  cases hm : h.mem a with
  | none => simp [Heap.incref, hm]
  | some p =>
      obtain ⟨e, n⟩ := p
      simp [Heap.incref_char hm]

lemma ErrorWrapper.deref_mkFrom {T : Type} [IErrorImpl T] (h : Heap) (t : T) :
    (ErrorWrapper.mkFrom h t).1.deref (ErrorWrapper.mkFrom h t).2._ptr =
      some (WrappingError.toIError ⟨t⟩) := by
  simp [ErrorWrapper.mkFrom, Heap.alloc, Heap.deref]

/-- Claim C4: for every BasicError state (any combination of type, details
and debug-info strings), the display-string conversion returns the details
field verbatim — it does not concatenate the type or debug-info fields —
and on the default-constructed all-empty state it returns the empty
string. -/
theorem toDisplayString_returns_details_verbatim :
    (∀ t d i : String, Error.toStdString ⟨t, d, i⟩ = d) ∧
    Error.toStdString Error.mkEmpty = "" :=
  ⟨fun _ _ _ => rfl, rfl⟩

/-- Claim C5: the type-and-details constructor stores both fields and leaves
debug info empty; the details-only constructor stores the details with the
type empty; the empty constructor yields all three fields empty; all three
are total functions (no failure, no validation). -/
theorem basicError_constructors_store_fields :
    ∀ t d : String,
      (Error.mkTypeDetails t d).GetType = t ∧
      (Error.mkTypeDetails t d).GetDetails = d ∧
      (Error.mkTypeDetails t d).GetInfo = "" ∧
      (Error.mkDetails d).GetDetails = d ∧
      (Error.mkDetails d).GetType = "" ∧
      (Error.mkDetails d).GetInfo = "" ∧
      Error.mkEmpty.GetType = "" ∧
      Error.mkEmpty.GetDetails = "" ∧
      Error.mkEmpty.GetInfo = "" :=
  fun _ _ => ⟨rfl, rfl, rfl, rfl, rfl, rfl, rfl, rfl, rfl⟩

/-- Claim C6: chaining WithDetails twice leaves the last written details
(last write wins) while the type and debug-info fields and the object
identity (address) are unchanged; WithInfo changes only the debug-info
field, likewise returning the same instance. -/
theorem withDetails_last_write_wins_frame :
    ∀ (r : ErrorRef) (a b c : String),
      ((r.WithDetails a).WithDetails b).state.GetDetails = b ∧
      ((r.WithDetails a).WithDetails b).state.GetType = r.state.GetType ∧
      ((r.WithDetails a).WithDetails b).state.GetInfo = r.state.GetInfo ∧
      ((r.WithDetails a).WithDetails b).addr = r.addr ∧
      (r.WithInfo c).state.GetInfo = c ∧
      (r.WithInfo c).state.GetType = r.state.GetType ∧
      (r.WithInfo c).state.GetDetails = r.state.GetDetails ∧
      (r.WithInfo c).addr = r.addr :=
  fun _ _ _ _ => ⟨rfl, rfl, rfl, rfl, rfl, rfl, rfl, rfl⟩

/-- Claim C8: each of the five capability operations of the adapter
WrappingError built from a value t returns exactly what the corresponding
operation of t returns — a pure pass-through with no extra state. -/
theorem wrappingError_pure_passthrough {T : Type} [IErrorImpl T] :
    ∀ t : T,
      (WrappingError.mk t).GetClassId = IErrorImpl.GetClassId t ∧
      (WrappingError.mk t).toStdString = IErrorImpl.toStdString t ∧
      (WrappingError.mk t).GetType = IErrorImpl.GetType t ∧
      (WrappingError.mk t).GetDetails = IErrorImpl.GetDetails t ∧
      (WrappingError.mk t).GetInfo = IErrorImpl.GetInfo t :=
  fun _ => ⟨rfl, rfl, rfl, rfl, rfl⟩

/-- Claim C1: feeding the handle produced by MakeError back through
MakeError (either as an rvalue, via the move specialisation, or as an
lvalue, via the copy specialisation) reuses that handle directly: the
resulting failure arm holds the very same handle (same pointer), no new
adapter is allocated, the type tag is unchanged and still equals the
original concrete value's tag, and the dereferenced object — hence every
accessor result — is unchanged. -/
theorem makeError_reuses_existing_handle {E : Type} [IErrorImpl E] :
    ∀ (h : Heap) (e : E),
      let p := MakeError h e
      let pm := MakeErrorFromHandleMove p.1 p.2.value
      let pc := MakeErrorFromHandleCopy p.1 p.2.value
      (pm.2.value = p.2.value ∧ pc.2.value = p.2.value) ∧
      (pm.1.next = p.1.next ∧ pc.1.next = p.1.next) ∧
      (ErrorWrapper.GetClassId pm.1 pm.2.value = ErrorWrapper.GetClassId p.1 p.2.value ∧
       ErrorWrapper.GetClassId pc.1 pc.2.value = ErrorWrapper.GetClassId p.1 p.2.value ∧
       ErrorWrapper.GetClassId p.1 p.2.value = some (IErrorImpl.GetClassId e)) ∧
      (pm.1.deref pm.2.value._ptr = p.1.deref p.2.value._ptr ∧
       pc.1.deref pc.2.value._ptr = p.1.deref p.2.value._ptr) := by
  intro h e
  dsimp only
  refine ⟨⟨rfl, rfl⟩, ⟨rfl, ?_⟩, ⟨rfl, ?_, ?_⟩, rfl, ?_⟩
  · exact Heap.next_incref _ _
  · simp only [ErrorWrapper.GetClassId, MakeErrorFromHandleCopy, Heap.deref_incref]
  · simp only [ErrorWrapper.GetClassId, MakeError, ErrorWrapper.deref_mkFrom]
    rfl
  · exact Heap.deref_incref _ _ _

/-- Claim C7: MakeOptionalError on a conforming error value yields a
populated optional whose contained handle's display string (and every other
accessor) equals that of the original value, while the NoError sentinel is
the empty optional. -/
theorem makeOptionalError_roundtrip {E : Type} [IErrorImpl E] :
    ∀ (h : Heap) (e : E),
      let p := MakeOptionalError h e
      p.2.isSome = true ∧
      p.2 = some ⟨h.next⟩ ∧
      ErrorWrapper.toStdString p.1 ⟨h.next⟩ = some (IErrorImpl.toStdString e) ∧
      ErrorWrapper.GetClassId p.1 ⟨h.next⟩ = some (IErrorImpl.GetClassId e) ∧
      ErrorWrapper.GetType p.1 ⟨h.next⟩ = some (IErrorImpl.GetType e) ∧
      ErrorWrapper.GetDetails p.1 ⟨h.next⟩ = some (IErrorImpl.GetDetails e) ∧
      ErrorWrapper.GetInfo p.1 ⟨h.next⟩ = some (IErrorImpl.GetInfo e) ∧
      NoError = (none : OptionalError) := by
  intro h e
  dsimp only
  refine ⟨rfl, rfl, ?_, ?_, ?_, ?_, ?_, rfl⟩ <;>
    simp [MakeOptionalError, ErrorWrapper.mkFrom, Heap.alloc, Heap.deref,
      ErrorWrapper.toStdString, ErrorWrapper.GetClassId, ErrorWrapper.GetType,
      ErrorWrapper.GetDetails, ErrorWrapper.GetInfo, WrappingError.toIError] <;>
    rfl

/-- Claim C9: copying a handle and then destroying the original leaves every
accessor of the copy returning exactly the values the original returned
(the copy shares the same underlying error instance, which stays alive). -/
theorem errorHandle_copy_survives_drop {T : Type} [IErrorImpl T] :
    ∀ (h : Heap) (t : T),
      let p := ErrorWrapper.mkFrom h t
      let pc := ErrorWrapper.copy p.1 p.2
      let h3 := ErrorWrapper.drop pc.1 p.2
      pc.2._ptr = p.2._ptr ∧
      ErrorWrapper.GetClassId h3 pc.2 = ErrorWrapper.GetClassId p.1 p.2 ∧
      ErrorWrapper.toStdString h3 pc.2 = ErrorWrapper.toStdString p.1 p.2 ∧
      ErrorWrapper.GetType h3 pc.2 = ErrorWrapper.GetType p.1 p.2 ∧
      ErrorWrapper.GetDetails h3 pc.2 = ErrorWrapper.GetDetails p.1 p.2 ∧
      ErrorWrapper.GetInfo h3 pc.2 = ErrorWrapper.GetInfo p.1 p.2 ∧
      ErrorWrapper.GetDetails h3 pc.2 = some (IErrorImpl.GetDetails t) := by
  intro h t
  dsimp only
  have hm1 : (ErrorWrapper.mkFrom h t).1.mem h.next =
      some (WrappingError.toIError ⟨t⟩, 1) := by
    simp [ErrorWrapper.mkFrom, Heap.alloc]
  have hptr : (ErrorWrapper.mkFrom h t).2._ptr = h.next := rfl
  have hm2 : ((ErrorWrapper.mkFrom h t).1.incref h.next).mem h.next =
      some (WrappingError.toIError ⟨t⟩, 2) := by
    rw [Heap.incref_char hm1]
    simp
  have hd3 : (ErrorWrapper.drop ((ErrorWrapper.mkFrom h t).1.incref h.next)
      (ErrorWrapper.mkFrom h t).2).deref h.next =
      some (WrappingError.toIError ⟨t⟩) := by
    rw [ErrorWrapper.drop, hptr, Heap.decref_dec hm2 (by omega)]
    simp [Heap.deref]
  have hd1 : (ErrorWrapper.mkFrom h t).1.deref h.next =
      some (WrappingError.toIError ⟨t⟩) := by
    simp [Heap.deref, hm1]
  refine ⟨rfl, ?_, ?_, ?_, ?_, ?_, ?_⟩ <;>
  · simp only [ErrorWrapper.GetClassId, ErrorWrapper.toStdString,
      ErrorWrapper.GetType, ErrorWrapper.GetDetails, ErrorWrapper.GetInfo,
      ErrorWrapper.copy, hptr, hd3, hd1]
    try rfl

/-- Counterexample for claim C10: the `ErrorWrapper` constructed from a
default `Error` is reachable, gets moved from (exactly what the
specialisation `MakeError(ErrorWrapper&&)` does to its argument via
`std::move`), and the moved-from handle — still reachable — holds a null
shared pointer, so all five of its accessor calls dereference a null
pointer (modelled as `none`). This refutes the claim that every reachable
handle dereferences a valid instance. -/
theorem moved_from_handle_accessors_null :
    StepsM Heap.empty []
      (RawHandle.mkFrom Heap.empty Error.mkEmpty).1
      ((RawHandle.mkFrom Heap.empty Error.mkEmpty).2 :: [RawHandle.nulled]) ∧
    RawHandle.nulled ∈
      ((RawHandle.mkFrom Heap.empty Error.mkEmpty).2 :: [RawHandle.nulled]) ∧
    RawHandle.GetClassId (RawHandle.mkFrom Heap.empty Error.mkEmpty).1
      RawHandle.nulled = none ∧
    RawHandle.toStdString (RawHandle.mkFrom Heap.empty Error.mkEmpty).1
      RawHandle.nulled = none ∧
    RawHandle.GetType (RawHandle.mkFrom Heap.empty Error.mkEmpty).1
      RawHandle.nulled = none ∧
    RawHandle.GetDetails (RawHandle.mkFrom Heap.empty Error.mkEmpty).1
      RawHandle.nulled = none ∧
    RawHandle.GetInfo (RawHandle.mkFrom Heap.empty Error.mkEmpty).1
      RawHandle.nulled = none := by
  refine ⟨?_, ?_, rfl, rfl, rfl, rfl, rfl⟩
  · exact
      StepsM.tail
        (StepsM.tail (StepsM.refl Heap.empty [])
          (StepM.mk Error.mkEmpty Heap.empty []))
        (StepM.move (RawHandle.mkFrom Heap.empty Error.mkEmpty).2
          (RawHandle.mkFrom Heap.empty Error.mkEmpty).1 [] [])
  · exact List.mem_cons_of_mem _ (List.mem_cons_self _ _)

/-- Amended claim C10: the only `ErrorWrapper` constructor builds an engaged
handle (there is no default or null-handle constructor), and every reachable
handle that has not been moved from (its shared pointer still engaged)
points at a live underlying instance, so all five accessors on it succeed;
only handles left behind by a move hold a null pointer. -/
theorem engaged_reachable_handles_never_null :
    (∀ {T : Type} [IErrorImpl T] (h : Heap) (t : T),
        ((RawHandle.mkFrom h t).2)._ptr = some h.next) ∧
    (∀ (h : Heap) (ws : List RawHandle), StepsM Heap.empty [] h ws →
      ∀ r, r ∈ ws → r._ptr ≠ none →
        (RawHandle.GetClassId h r).isSome = true ∧
        (RawHandle.toStdString h r).isSome = true ∧
        (RawHandle.GetType h r).isSome = true ∧
        (RawHandle.GetDetails h r).isSome = true ∧
        (RawHandle.GetInfo h r).isSome = true) := by
  constructor
  · intro T _ h t
    rfl
  · intro h ws hsteps r hr hne
    cases hrp : r._ptr with
    | none => exact absurd hrp hne
    | some a =>
        have hre : r = (⟨some a⟩ : RawHandle) := by rw [← hrp]
        rw [hre] at hr
        obtain ⟨e, he⟩ := (WFM.empty.steps hsteps).deref_of_engaged hr
        simp [RawHandle.GetClassId, RawHandle.toStdString, RawHandle.GetType,
          RawHandle.GetDetails, RawHandle.GetInfo, hrp,
          ErrorWrapper.GetClassId, ErrorWrapper.toStdString, ErrorWrapper.GetType,
          ErrorWrapper.GetDetails, ErrorWrapper.GetInfo, he]

/-- Witness for the amended claim C10: the freshly constructed handle from
one construction step out of the empty heap is engaged, and its five
accessors all succeed. -/
theorem engaged_reachable_handles_never_null_witness :
    ((RawHandle.mkFrom Heap.empty Error.mkEmpty).2)._ptr = some Heap.empty.next ∧
    ((RawHandle.GetClassId (RawHandle.mkFrom Heap.empty Error.mkEmpty).1
        (RawHandle.mkFrom Heap.empty Error.mkEmpty).2).isSome = true ∧
      (RawHandle.toStdString (RawHandle.mkFrom Heap.empty Error.mkEmpty).1
        (RawHandle.mkFrom Heap.empty Error.mkEmpty).2).isSome = true ∧
      (RawHandle.GetType (RawHandle.mkFrom Heap.empty Error.mkEmpty).1
        (RawHandle.mkFrom Heap.empty Error.mkEmpty).2).isSome = true ∧
      (RawHandle.GetDetails (RawHandle.mkFrom Heap.empty Error.mkEmpty).1
        (RawHandle.mkFrom Heap.empty Error.mkEmpty).2).isSome = true ∧
      (RawHandle.GetInfo (RawHandle.mkFrom Heap.empty Error.mkEmpty).1
        (RawHandle.mkFrom Heap.empty Error.mkEmpty).2).isSome = true) :=
  ⟨engaged_reachable_handles_never_null.1 Heap.empty Error.mkEmpty,
   engaged_reachable_handles_never_null.2 _ _
     (StepsM.tail (StepsM.refl Heap.empty [])
       (StepM.mk Error.mkEmpty Heap.empty []))
     _ (List.mem_cons_self _ _) (by decide)⟩

/-- Counterexample for claim C2: an adapter instance (concrete type
WrappingError of Error) and a plain Error instance are instances of two
different concrete classes, yet their GetClassId results are equal, because
the adapter forwards the wrapped value's tag. -/
theorem classId_equal_across_different_concrete_types :
    (ConcreteError.wrapped (ConcreteError.basic Error.mkEmpty)).classId
      = (ConcreteError.basic Error.mkEmpty).classId ∧
    (ConcreteError.wrapped (ConcreteError.basic Error.mkEmpty)).className
      ≠ (ConcreteError.basic Error.mkEmpty).className := by
  exact ⟨rfl, by decide⟩

lemma ConcreteError.classId_root (x : ConcreteError) :
    (x.classId = Error.idAddr ∧ x.rootName = ErrClassName.errorClass) ∨
    (x.classId = CustomError.idAddr ∧ x.rootName = ErrClassName.customClass) := by
  induction x with
  | basic e => exact Or.inl ⟨rfl, rfl⟩
  | custom c => exact Or.inr ⟨rfl, rfl⟩
  | wrapped t ih => simpa [ConcreteError.classId, ConcreteError.rootName] using ih

/-- Amended claim C2: two error instances have equal type tags exactly when
their underlying (pre-erasure) concrete types agree — the adapter
deliberately reports the wrapped type's tag, and concrete types owning
their own distinct static marker get distinct tags. -/
theorem classId_eq_iff_same_root_type :
    ∀ x y : ConcreteError, x.classId = y.classId ↔ x.rootName = y.rootName := by
  intro x y
  rcases x.classId_root with ⟨hx1, hx2⟩ | ⟨hx1, hx2⟩ <;>
    rcases y.classId_root with ⟨hy1, hy2⟩ | ⟨hy1, hy2⟩ <;>
    rw [hx1, hx2, hy1, hy2] <;>
    simp [Error.idAddr, CustomError.idAddr]

/-- Counterexample for claim C3: a class that structurally exposes the five
named capability operations but does not derive from IError fails the
ErrorConcept constraint — duck-typed conformance is rejected. -/
theorem errorConcept_rejects_structural_conformance :
    (CppClassShape.mk false true).hasFiveOps = true ∧
    ErrorConcept (CppClassShape.mk false true) = false :=
  ⟨rfl, rfl⟩

/-- Amended claim C3: the ErrorConcept constraint accepts exactly nominal
conformance — it holds iff the type derives from IError, because the
is_convertible arm is vacuously false (IError is abstract), so structural
conformance alone is never accepted. -/
theorem errorConcept_is_nominal_only :
    ∀ c : CppClassShape, ErrorConcept c = c.derivesIError := by
  intro c
  simp [ErrorConcept, CppClassShape.convertibleToIError]

end UtilCpp
